import Mathlib

/-!
Verification development for the IP-based failover manager and stream health
checker (`ip_failover_manager.py`, `stream_health_checker.py`).

The Python code is shallowly embedded:
* `dict` becomes an association list with unique keys (insertion preserves
  position of an existing key and appends a new one, as in CPython);
* `set` becomes `Finset String` (`add` is `insert`, `discard` is `erase`,
  `len` is `card`);
* `datetime` values become `Nat` minute stamps, float latencies become `ℚ`;
* network I/O (aiohttp requests, `urllib.parse.urlparse`, MD5 hashing) is
  abstracted into oracle parameters supplied to each operation, so every
  operation is a pure function of the state and the oracle answers;
* a statement the interpreter would abort with an uncaught exception
  (`KeyError` / `IndexError`) is modelled by an `Option`-valued result
  (`none` = crash) or, inside a `try` block, by the handler's behaviour.
-/

namespace IPFailover

/-- `IPSession` from `ip_failover_manager.py` (minus the key, which is the
IP address itself, held separately as the dictionary key). -/
structure SessionInfo where
  userId : String
  providerName : String
  failoverTier : Nat
  sessionStart : Nat
  lastActivity : Nat
  channelsAccessed : List String
  connectionCount : Nat
  deriving Repr, DecidableEq

/-- `FailoverProvider` from `ip_failover_manager.py`.  `hasXtream` records
whether `xtream_config` is set (the template contents are irrelevant to the
state machine; URL strings are produced by the resolution oracle). -/
structure Provider where
  name : String
  tier : Nat
  hasXtream : Bool
  maxConcurrentIps : Nat
  activeIps : Finset String
  healthStatus : String
  lastHealthCheck : Option Nat
  deriving DecidableEq

/-- The mutable in-memory state of `IPFailoverManager`: the provider table
(`self.providers`, in registration order) and the active-session dictionary
(`self.active_sessions`, ip → session, in insertion order). -/
structure ManagerState where
  providers : List Provider
  sessions : List (String × SessionInfo)
  deriving DecidableEq

/-- Python `dict` lookup on an association list. -/
def dictGet (l : List (String × SessionInfo)) (k : String) : Option SessionInfo :=
  (l.find? (fun e => e.1 = k)).map (fun e => e.2)

/-- Python `dict` assignment: replace in place if the key exists, else append. -/
def dictSet (l : List (String × SessionInfo)) (k : String) (v : SessionInfo) :
    List (String × SessionInfo) :=
  if l.any (fun e => e.1 = k) then
    l.map (fun e => if e.1 = k then (k, v) else e)
  else
    l ++ [(k, v)]

/-- `self.providers[name]` (first provider with the given name). -/
def findProvider (ps : List Provider) (n : String) : Option Provider :=
  ps.find? (fun p => p.name = n)

/-- Replace the provider named `n` by `f` applied to it (dictionary-value
mutation; names are unique so at most one element changes). -/
def updateProvider (ps : List Provider) (n : String) (f : Provider → Provider) :
    List Provider :=
  ps.map (fun p => if p.name = n then f p else p)

/-- Stable insertion into a tier-sorted list: the new element goes before
every element of strictly greater tier and after elements of smaller-or-equal
tier already present. -/
def insertByTier (p : Provider) : List Provider → List Provider
  | [] => [p]
  | q :: qs => if q.tier < p.tier then q :: insertByTier p qs else p :: q :: qs

/-- Stable sort by ascending tier, matching Python's stable
`sorted(..., key=lambda p: p.tier)`: ties keep registration order. -/
def sortByTier : List Provider → List Provider
  | [] => []
  | p :: ps => insertByTier p (sortByTier ps)

/-- Eligibility test of the selection loop in `determine_failover_provider`
(line 285-286): health in `{"healthy", "unknown"}` and occupancy strictly
below capacity. -/
def eligProvider (p : Provider) : Bool :=
  (p.healthStatus = "healthy" ∨ p.healthStatus = "unknown") &&
    p.activeIps.card < p.maxConcurrentIps

/-- The non-sticky part of `determine_failover_provider` (lines 281-296):
first eligible provider in ascending tier order, else hash-based choice among
the lowest-tier providers.  `ipHash` abstracts
`int(hashlib.md5(ip).hexdigest(), 16)`.  `none` models the `IndexError`
raised when the provider table is empty. -/
def selectBestProvider (ipHash : String → Nat) (ps : List Provider) (ip : String) :
    Option String :=
  let sorted := sortByTier ps
  match sorted.find? eligProvider with
  | some p => some p.name
  | none =>
    match sorted with
    | [] => none
    | p0 :: _ =>
      let lowest := sorted.filter (fun p => p.tier = p0.tier)
      (lowest.get? (ipHash ip % lowest.length)).map (fun p => p.name)

/-- `determine_failover_provider` (lines 269-296).  The sticky branch keeps
the session's provider when it is healthy and `len(active_ips) <=
max_concurrent_ips` (note: non-strict comparison, source line 278).  A
missing provider entry for an existing session would raise `KeyError`
(modelled as `none`). -/
def determineFailoverProvider (ipHash : String → Nat) (st : ManagerState)
    (ip : String) : Option String :=
  match dictGet st.sessions ip with
  | some s =>
    match findProvider st.providers s.providerName with
    | none => none
    | some p =>
      if p.healthStatus = "healthy" ∧ p.activeIps.card ≤ p.maxConcurrentIps then
        some s.providerName
      else
        selectBestProvider ipHash st.providers ip
  | none => selectBestProvider ipHash st.providers ip

/-- The subset of an `aiohttp.web.Response` the claims talk about: HTTP
status and the three failover headers. -/
structure HttpResult where
  status : Nat
  providerHeader : Option String
  tierHeader : Option Nat
  failoverUsed : Bool
  deriving Repr, DecidableEq

/-- Oracle answers for the network side of a request: `resolve p chan` is the
stream-URL resolution (the Xtream template, or
`get_channel_stream_from_m3u`; `none` covers both `None` and the falsy empty
string), and `fetch url` is the upstream HTTP GET (`Except.error` = raised
exception, `Except.ok s` = response with status `s`). -/
structure FetchEnv where
  resolve : Provider → String → Option String
  fetch : String → Except Unit Nat

/-- One attempt of the loop body of `try_failover_stream` succeeds: the URL
resolves, the fetch returns HTTP 200, and the session-dictionary update at
line 394 does not raise `KeyError` (the IP has a session). -/
def attemptOk (env : FetchEnv) (st : ManagerState) (ip chan : String)
    (p : Provider) : Bool :=
  match env.resolve p chan with
  | none => false
  | some url =>
    match env.fetch url with
    | .error _ => false
    | .ok s => s = 200 && (dictGet st.sessions ip).isSome

/-- Candidate list of `try_failover_stream` (lines 373-380): providers with
`tier >= min_tier` and health ≠ "offline", sorted by ascending tier (stable,
like Python's in-place `list.sort`). -/
def failoverCandidates (ps : List Provider) (minTier : Nat) : List Provider :=
  sortByTier (ps.filter (fun p => minTier ≤ p.tier && p.healthStatus ≠ "offline"))

/-- The `for provider in available_providers` loop of `try_failover_stream`
(lines 382-420): each candidate is attempted in order; any exception is
caught and the loop continues; on HTTP 200 the session is re-pointed at the
candidate and the IP is added to its active set; exhaustion returns 503. -/
def tryFailoverLoop (env : FetchEnv) (st : ManagerState) (ip chan : String) :
    List Provider → HttpResult × ManagerState
  | [] => (⟨503, none, none, false⟩, st)
  | p :: rest =>
    match env.resolve p chan with
    | none => tryFailoverLoop env st ip chan rest
    | some url =>
      match env.fetch url with
      | .error _ => tryFailoverLoop env st ip chan rest
      | .ok s =>
        if s = 200 then
          match dictGet st.sessions ip with
          | none => tryFailoverLoop env st ip chan rest
          | some sess =>
            (⟨200, some p.name, some p.tier, true⟩,
             { providers := updateProvider st.providers p.name
                 (fun q => { q with activeIps := insert ip q.activeIps }),
               sessions := dictSet st.sessions ip
                 { sess with providerName := p.name, failoverTier := p.tier } })
        else
          tryFailoverLoop env st ip chan rest

/-- `try_failover_stream` (lines 371-420).  An empty candidate list returns
503 "No available providers"; a loop that exhausts all candidates returns
503 "All failover providers failed"; both are plain responses, no exception
escapes. -/
def tryFailoverStream (env : FetchEnv) (st : ManagerState) (ip chan : String)
    (minTier : Nat) : HttpResult × ManagerState :=
  let cands := failoverCandidates st.providers minTier
  if cands.isEmpty then (⟨503, none, none, false⟩, st)
  else tryFailoverLoop env st ip chan cands

/-- The session record built at lines 321-331 of `handle_stream_request`.
Python's `list(set(old + [chan]))` has unspecified order; it is modelled as
order-preserving deduplication, which no claim inspects. -/
def touchedSession (old : Option SessionInfo) (uid chan : String) (tier now : Nat)
    (pname : String) : SessionInfo :=
  { userId := uid
    providerName := pname
    failoverTier := tier
    sessionStart := match old with | some s => s.sessionStart | none => now
    lastActivity := now
    channelsAccessed :=
      ((match old with | some s => s.channelsAccessed | none => []) ++ [chan]).dedup
    connectionCount := (match old with | some s => s.connectionCount | none => 0) + 1 }

/-- `handle_stream_request` (lines 298-369), state-relevant part: select a
provider, update the session dictionary and the provider's active-IP set
(lines 320-335), resolve the stream URL (404 if falsy), proxy the fetch, and
on a non-200 status or an exception escalate via `try_failover_stream` with
`min_tier = provider.tier + 1`.  A crash in selection (empty provider table,
or a session pointing at an unknown provider) is modelled as a 500 result
with the state unchanged (no mutation precedes the raise in the source). -/
def handleStreamRequest (ipHash : String → Nat) (env : FetchEnv)
    (st : ManagerState) (ip uid chan : String) (now : Nat) :
    HttpResult × ManagerState :=
  match determineFailoverProvider ipHash st ip with
  | none => (⟨500, none, none, false⟩, st)
  | some pname =>
    match findProvider st.providers pname with
    | none => (⟨500, none, none, false⟩, st)
    | some p =>
      let sess := touchedSession (dictGet st.sessions ip) uid chan p.tier now pname
      let st1 : ManagerState :=
        { providers := updateProvider st.providers pname
            (fun q => { q with activeIps := insert ip q.activeIps }),
          sessions := dictSet st.sessions ip sess }
      match env.resolve p chan with
      | none => (⟨404, none, none, false⟩, st1)
      | some url =>
        match env.fetch url with
        | .ok s =>
          if s = 200 then (⟨200, some pname, some p.tier, false⟩, st1)
          else tryFailoverStream env st1 ip chan (p.tier + 1)
        | .error _ => tryFailoverStream env st1 ip chan (p.tier + 1)

/-- Outcome of one provider health probe in `health_check_providers`: either
an HTTP response with a status code, or a raised exception (timeout,
transport error, anything else). -/
inductive ProbeOutcome where
  | resp (status : Nat)
  | failure (msg : String)
  deriving Repr, DecidableEq

/-- Health classification of `health_check_providers` (lines 468-473 and the
`except` handler at 479-480): 200 → healthy, 502/503/504 → degraded, any
other status → offline, any exception (timeouts included) → offline. -/
def classifyProviderProbe : ProbeOutcome → String
  | .resp s =>
    if s = 200 then "healthy"
    else if s = 502 ∨ s = 503 ∨ s = 504 then "degraded"
    else "offline"
  | .failure _ => "offline"

/-- Latency handling of `health_check_providers`: `response_time` is computed
(and logged) only on the response path (line 466); the exception handler
records no latency. -/
def probeLatencyRecorded (rt : ℚ) : ProbeOutcome → Option ℚ
  | .resp _ => some rt
  | .failure _ => none

/-- Per-provider effect of `health_check_providers` (lines 451-482): the
health status is reclassified and `last_health_check` is set to now on both
the response and the exception path. -/
def healthCheckProvider (out : ProbeOutcome) (now : Nat) (p : Provider) : Provider :=
  { p with healthStatus := classifyProviderProbe out, lastHealthCheck := some now }

/-- Whole-table health sweep: every provider is probed (oracle `outs` gives
each probe's outcome by provider name) and updated in place. -/
def healthCheckProviders (outs : String → ProbeOutcome) (now : Nat)
    (st : ManagerState) : ManagerState :=
  { st with providers := st.providers.map (fun p => healthCheckProvider (outs p.name) now p) }

/-- Session-expiry cutoff: `datetime.now() - timedelta(minutes=30)`
(line 486), with times in minutes. -/
def sessionCutoff (now : Nat) : Nat := now - 30

/-- The discard loop of `cleanup_expired_sessions` (lines 489-495): for each
expired session, if its provider name is registered, remove the IP from that
provider's active set (`set.discard`, a no-op when absent). -/
def discardExpired (ex : List (String × SessionInfo)) (ps : List Provider) :
    List Provider :=
  ex.foldl
    (fun acc e =>
      if (findProvider acc e.2.providerName).isSome then
        updateProvider acc e.2.providerName
          (fun p => { p with activeIps := p.activeIps.erase e.1 })
      else acc)
    ps

/-- `cleanup_expired_sessions` (lines 484-501): sessions with
`last_activity < cutoff` are expired — their IPs are discarded from their
providers' active sets and their entries deleted from the dictionary. -/
def cleanupExpiredSessions (now : Nat) (st : ManagerState) : ManagerState :=
  let expired := st.sessions.filter (fun e => e.2.lastActivity < sessionCutoff now)
  { providers := discardExpired expired st.providers,
    sessions := st.sessions.filter (fun e => ¬ e.2.lastActivity < sessionCutoff now) }

/-- One interleaving step of the system: a stream request (with arbitrary
oracle answers), a health sweep, or a session-expiry pass. -/
inductive Step : ManagerState → ManagerState → Prop where
  | request (ipHash : String → Nat) (env : FetchEnv) (ip uid chan : String)
      (now : Nat) (st : ManagerState) :
      Step st (handleStreamRequest ipHash env st ip uid chan now).2
  | health (outs : String → ProbeOutcome) (now : Nat) (st : ManagerState) :
      Step st (healthCheckProviders outs now st)
  | cleanup (now : Nat) (st : ManagerState) :
      Step st (cleanupExpiredSessions now st)

/-- States reachable from `init` by any interleaving of the three
operations. -/
inductive Reachable (init : ManagerState) : ManagerState → Prop where
  | refl : Reachable init init
  | step {st st' : ManagerState} : Reachable init st → Step st st' →
      Reachable init st'

/-- A state as produced by `load_config`: no sessions yet, provider names
unique (they key a dictionary), every provider starting with an empty
active-IP set. -/
def InitOk (st : ManagerState) : Prop :=
  st.sessions = [] ∧ (st.providers.map (fun p => p.name)).Nodup ∧
    ∀ p ∈ st.providers, p.activeIps = ∅

/-- The structural invariant of the manager state: session keys are unique
(a dictionary), provider names are unique (a dictionary), and every
session's IP is a member of its assigned provider's active-IP set. -/
def Inv (st : ManagerState) : Prop :=
  (st.sessions.map (fun e => e.1)).Nodup ∧
  (st.providers.map (fun p => p.name)).Nodup ∧
  ∀ e ∈ st.sessions, ∃ p ∈ st.providers,
    p.name = e.2.providerName ∧ e.1 ∈ p.activeIps

end IPFailover

namespace HealthChecker

/-- `StreamHealth` from `stream_health_checker.py` (float latency modelled
as `ℚ`). -/
structure StreamHealth where
  url : String
  status : String
  responseTime : ℚ := 0
  statusCode : Option Nat := none
  contentType : Option String := none
  contentLength : Option Nat := none
  errorMessage : Option String := none
  deriving DecidableEq

/-- Outcome of one `session.head(url)` probe: an HTTP response (status,
optional `Location` header, content headers), or one of the three exception
classes distinguished by the source (`asyncio.TimeoutError`,
`aiohttp.ClientError`, anything else). -/
inductive HeadOutcome where
  | resp (status : Nat) (location : Option String) (contentType : Option String)
      (contentLength : Nat)
  | timeoutErr
  | clientErr (msg : String)
  | otherErr (msg : String)
  deriving DecidableEq

/-- Oracle for `check_stream_health`: `validUrl` abstracts the
`urllib.parse.urlparse` check `parsed.scheme and parsed.netloc`; `head`
gives each URL's probe outcome; `rt` the elapsed time measured for that
URL's probe; `budget` is the checker's configured timeout (default 10). -/
structure ProbeEnv where
  validUrl : String → Bool
  head : String → HeadOutcome
  rt : String → ℚ
  budget : ℚ := 10

/-- `check_stream_health` (lines 77-138).  The fuel argument models
Python's finite recursion stack: the recursive call at line 108 sits inside
the `try`, so exhausting the stack (`RecursionError`) is caught by `except
Exception` and reported as an `error` classification — fuel 0 takes that
branch.  Redirect statuses are 301/302/307/308; a redirect without a
`Location` header falls through to the `offline` return at line 110. -/
def checkStreamHealth (env : ProbeEnv) : Nat → String → StreamHealth
  | 0, url =>
    { url := url, status := "error", responseTime := env.rt url,
      errorMessage := some "Unexpected error: maximum recursion depth exceeded" }
  | fuel + 1, url =>
    if env.validUrl url then
      match env.head url with
      | .resp s loc ct cl =>
        if s = 200 then
          { url := url, status := "online", responseTime := env.rt url,
            statusCode := some s, contentType := ct, contentLength := some cl }
        else if s = 301 ∨ s = 302 ∨ s = 307 ∨ s = 308 then
          match loc with
          | some target => checkStreamHealth env fuel target
          | none =>
            { url := url, status := "offline", responseTime := env.rt url,
              statusCode := some s, errorMessage := some "HTTP status" }
        else
          { url := url, status := "offline", responseTime := env.rt url,
            statusCode := some s, errorMessage := some "HTTP status" }
      | .timeoutErr =>
        { url := url, status := "timeout", responseTime := env.budget,
          errorMessage := some "Request timeout" }
      | .clientErr m =>
        { url := url, status := "error", responseTime := env.rt url,
          errorMessage := some m }
      | .otherErr m =>
        { url := url, status := "error", responseTime := env.rt url,
          errorMessage := some m }
    else
      { url := url, status := "error", errorMessage := some "Invalid URL format" }

/-- One-hop redirect probing, modelled from the spec:
"a 3xx redirect is followed exactly one hop by resubmitting against the
`Location` target — no deeper recursion."  The resubmission classifies the
second response without following any further redirect. -/
def checkStreamHealthOneHop (env : ProbeEnv) (url : String) : StreamHealth :=
  let classifyFlat : String → StreamHealth := fun u =>
    if env.validUrl u then
      match env.head u with
      | .resp s _ ct cl =>
        if s = 200 then
          { url := u, status := "online", responseTime := env.rt u,
            statusCode := some s, contentType := ct, contentLength := some cl }
        else
          { url := u, status := "offline", responseTime := env.rt u,
            statusCode := some s, errorMessage := some "HTTP status" }
      | .timeoutErr =>
        { url := u, status := "timeout", responseTime := env.budget,
          errorMessage := some "Request timeout" }
      | .clientErr m =>
        { url := u, status := "error", responseTime := env.rt u,
          errorMessage := some m }
      | .otherErr m =>
        { url := u, status := "error", responseTime := env.rt u,
          errorMessage := some m }
    else
      { url := u, status := "error", errorMessage := some "Invalid URL format" }
  if env.validUrl url then
    match env.head url with
    | .resp s loc _ _ =>
      if s = 200 then classifyFlat url
      else if s = 301 ∨ s = 302 ∨ s = 307 ∨ s = 308 then
        match loc with
        | some target => classifyFlat target
        | none => classifyFlat url
      else classifyFlat url
    | _ => classifyFlat url
  else classifyFlat url

/-- A channel as consumed by `check_channel_health`: its name, id and the
`url` fields of its stream entries. -/
structure Channel where
  name : String
  id : String
  streamUrls : List String

/-- `ChannelHealthReport` from `stream_health_checker.py`. -/
structure ChannelHealthReport where
  channelName : String
  channelId : String
  streams : List StreamHealth
  bestStream : Option StreamHealth
  worstStream : Option StreamHealth
  averageResponseTime : ℚ
  successRate : ℚ
  deriving DecidableEq

/-- Python `min(l, key=response_time)`: first element attaining the minimum
(the accumulator is kept on ties). -/
def minByRt (s : StreamHealth) (rest : List StreamHealth) : StreamHealth :=
  rest.foldl (fun acc x => if x.responseTime < acc.responseTime then x else acc) s

/-- Python `max(l, key=response_time)`: first element attaining the maximum
(the accumulator is kept on ties). -/
def maxByRt (s : StreamHealth) (rest : List StreamHealth) : StreamHealth :=
  rest.foldl (fun acc x => if acc.responseTime < x.responseTime then x else acc) s

/-- `ChannelHealthReport.__post_init__` (lines 47-56): with a non-empty
stream list, best/worst/mean are computed over the online streams when any
exists (defaults `None`/`None`/`0` otherwise), and
`success_rate = len(online) / len(streams) * 100`; with an empty list all
aggregate fields keep their defaults. -/
def mkChannelHealthReport (name id : String) (streams : List StreamHealth) :
    ChannelHealthReport :=
  match streams with
  | [] =>
    { channelName := name, channelId := id, streams := [],
      bestStream := none, worstStream := none,
      averageResponseTime := 0, successRate := 0 }
  | _ :: _ =>
    let online := streams.filter (fun s => s.status = "online")
    let best := match online with
      | [] => none
      | s :: rest => some (minByRt s rest)
    let worst := match online with
      | [] => none
      | s :: rest => some (maxByRt s rest)
    let avg : ℚ := match online with
      | [] => 0
      | _ :: _ => (online.map (fun s => s.responseTime)).sum / online.length
    { channelName := name, channelId := id, streams := streams,
      bestStream := best, worstStream := worst,
      averageResponseTime := avg,
      successRate := (online.length : ℚ) / streams.length * 100 }

/-- `check_channel_health` (lines 176-207): every non-empty stream URL is
probed; `check_stream_health` never raises, so `asyncio.gather` returns only
`StreamHealth` values and each probe result enters the report. -/
def checkChannelHealth (env : ProbeEnv) (fuel : Nat) (ch : Channel) :
    ChannelHealthReport :=
  let results := (ch.streamUrls.filter (fun u => u ≠ "")).map
    (checkStreamHealth env fuel)
  mkChannelHealthReport ch.name ch.id results

end HealthChecker

namespace NetOps

/-- A network call site of the system, with the explicit timeout (seconds)
its request carries, if any. -/
structure NetOp where
  site : String
  timeoutSeconds : Option Nat
  deriving DecidableEq

/-- `health_check_providers`, line 465: `ClientTimeout(total=30)`. -/
def providerHealthProbe : NetOp := ⟨"provider health probe", some 30⟩

/-- `try_failover_stream`, line 391: `ClientTimeout(total=10)`. -/
def escalationStreamFetch : NetOp := ⟨"escalation stream fetch", some 10⟩

/-- `StreamHealthChecker.__aenter__`, lines 67-70: the client session
carries `ClientTimeout(total=self.timeout)` (constructor default 10), so
both stream probes and content sampling are bounded. -/
def streamProbeSession : NetOp := ⟨"stream probe session", some 10⟩

/-- `handle_stream_request`, lines 350-351: `session.get(stream_url)` with
no timeout argument — the upstream proxy fetch carries no explicit
timeout. -/
def proxyStreamFetch : NetOp := ⟨"upstream proxy fetch", none⟩

/-- `get_channel_stream_from_m3u`, lines 425-426: `session.get(m3u_url)`
with no timeout argument — the playlist fetch carries no explicit
timeout. -/
def playlistFetch : NetOp := ⟨"playlist fetch", none⟩

/-- Every network operation issued by the failover manager and the stream
health checker. -/
def netOps : List NetOp :=
  [providerHealthProbe, escalationStreamFetch, streamProbeSession,
   proxyStreamFetch, playlistFetch]

end NetOps

namespace IPFailover

/-- Concrete provider used to exercise the sticky branch: healthy, capacity
2, one active IP. -/
def c1Provider : Provider := ⟨"A", 0, true, 2, {"9.9.9.9"}, "healthy", none⟩

/-- Session assigning IP 9.9.9.9 to provider A. -/
def c1Session : SessionInfo := ⟨"u", "A", 0, 0, 0, ["ch"], 1⟩

/-- One-provider state with an existing sticky-eligible session. -/
def c1State : ManagerState := ⟨[c1Provider], [("9.9.9.9", c1Session)]⟩

/-- Two fresh providers in tiers 0 and 1, capacity 1 each, health still
"unknown" (no probe has run). -/
def cexInit : ManagerState :=
  ⟨[⟨"A", 0, true, 1, ∅, "unknown", none⟩,
    ⟨"B", 1, true, 1, ∅, "unknown", none⟩], []⟩

/-- Request oracle in which every resolution and fetch succeeds. -/
def cexEnv : FetchEnv := ⟨fun _ _ => some "http://u", fun _ => .ok 200⟩

/-- Hash oracle (irrelevant to the trace; the fallback branch is never
reached). -/
def cexHash : String → Nat := fun _ => 0

/-- State after the first stream request from 7.7.7.7. -/
def cexSt1 : ManagerState :=
  (handleStreamRequest cexHash cexEnv cexInit "7.7.7.7" "u" "ch" 0).2

/-- State after the second stream request from the same IP. -/
def cexSt2 : ManagerState :=
  (handleStreamRequest cexHash cexEnv cexSt1 "7.7.7.7" "u" "ch" 1).2

/-- Registration order deliberately not tier order: a full tier-0 provider,
a free tier-1 provider, then a free tier-0 provider. -/
def c4State : ManagerState :=
  ⟨[⟨"X", 0, true, 1, {"5.5.5.5"}, "healthy", none⟩,
    ⟨"Y", 1, true, 1, ∅, "healthy", none⟩,
    ⟨"Z", 0, true, 1, ∅, "healthy", none⟩], []⟩

/-- One degraded and one healthy provider for the escalation witness. -/
def c5State : ManagerState :=
  ⟨[⟨"A", 0, true, 1, ∅, "degraded", none⟩,
    ⟨"B", 1, true, 1, ∅, "healthy", none⟩], []⟩

/-- Request oracle in which no stream URL ever resolves (every candidate
attempt fails). -/
def c5Env : FetchEnv := ⟨fun _ _ => none, fun _ => .error ()⟩

/-- Provider in its pre-probe state, used by the health-classification
witnesses. -/
def c7Provider : Provider := ⟨"P", 0, false, 1, ∅, "unknown", none⟩

/-- Provider with two active IPs backing two sessions, one of which is
stale. -/
def c10State : ManagerState :=
  ⟨[⟨"A", 0, true, 5, {"1.1.1.1", "2.2.2.2"}, "healthy", none⟩],
   [("1.1.1.1", ⟨"u1", "A", 0, 0, 0, ["ch"], 1⟩),
    ("2.2.2.2", ⟨"u2", "A", 0, 95, 95, ["ch"], 1⟩)]⟩

end IPFailover

namespace HealthChecker

/-- Probe oracle realizing a two-hop redirect chain a → b → c, with c
answering 200. -/
def c3Env : ProbeEnv :=
  { validUrl := fun _ => true,
    head := fun u =>
      if u = "a" then .resp 302 (some "b") none 0
      else if u = "b" then .resp 302 (some "c") none 0
      else .resp 200 none (some "video/mp2t") 5,
    rt := fun _ => 1,
    budget := 10 }

/-- Probe oracle in which every request times out. -/
def c6Env : ProbeEnv :=
  { validUrl := fun _ => true,
    head := fun _ => .timeoutErr,
    rt := fun _ => 1,
    budget := 10 }

/-- An online probe result with latency 1. -/
def c8s1 : StreamHealth :=
  { url := "u1", status := "online", responseTime := 1, statusCode := some 200 }

/-- An offline probe result with latency 2. -/
def c8s2 : StreamHealth :=
  { url := "u2", status := "offline", responseTime := 2, statusCode := some 404 }

/-- Probe oracle that rejects the URL "bad" at the parsing stage and
answers 200 elsewhere. -/
def c9Env : ProbeEnv :=
  { validUrl := fun u => u ≠ "bad",
    head := fun _ => .resp 200 none none 0,
    rt := fun _ => 1,
    budget := 10 }

/-- A channel with one well-formed URL, one malformed URL and one empty
entry. -/
def c9Channel : Channel := ⟨"news", "n1", ["http://ok", "bad", ""]⟩

end HealthChecker

namespace IPFailover

lemma findProvider_mem {ps : List Provider} {n : String} {p : Provider}
    (h : findProvider ps n = some p) : p ∈ ps ∧ p.name = n := by
  refine ⟨List.mem_of_find?_eq_some h, ?_⟩
  have := List.find?_some h
  simpa using this

lemma findProvider_isSome {ps : List Provider} {n : String} {p : Provider}
    (hp : p ∈ ps) (hn : p.name = n) : (findProvider ps n).isSome := by
  cases h : findProvider ps n with
  | some q => simp
  | none =>
    rw [findProvider, List.find?_eq_none] at h
    exact absurd (by simpa using hn) (by simpa using h p hp)

lemma updateProvider_map_name (ps : List Provider) (n : String)
    (f : Provider → Provider) (hf : ∀ p, (f p).name = p.name) :
    (updateProvider ps n f).map (fun p => p.name) = ps.map (fun p => p.name) := by
  unfold updateProvider
  rw [List.map_map]
  refine List.map_congr_left ?_
  intro p _
  by_cases h : p.name = n <;> simp [h, hf]

lemma mem_updateProvider (ps : List Provider) (n : String)
    (f : Provider → Provider) {q : Provider} (hq : q ∈ ps) :
    (if q.name = n then f q else q) ∈ updateProvider ps n f :=
  List.mem_map_of_mem _ hq

lemma mem_updateProvider_elim {ps : List Provider} {n : String}
    {f : Provider → Provider} {q' : Provider} (h : q' ∈ updateProvider ps n f) :
    ∃ q ∈ ps, q' = if q.name = n then f q else q := by
  rcases List.mem_map.1 h with ⟨q, hq, hEq⟩
  exact ⟨q, hq, hEq.symm⟩

lemma dictGet_eq_some_of_mem {l : List (String × SessionInfo)}
    {e : String × SessionInfo} (hN : (l.map (fun e => e.1)).Nodup) (he : e ∈ l) :
    dictGet l e.1 = some e.2 := by
  induction l with
  | nil => cases he
  | cons a l ih =>
    rcases List.mem_cons.1 he with rfl | he'
    · simp [dictGet]
    · have hne : a.1 ≠ e.1 := by
        intro hEq
        have : e.1 ∈ l.map (fun e => e.1) := List.mem_map_of_mem _ he'
        rw [← hEq] at this
        exact (List.nodup_cons.1 hN).1 this
      have hN' : (l.map (fun e => e.1)).Nodup := (List.nodup_cons.1 hN).2
      have hstep : (a :: l).find? (fun e' => e'.1 = e.1) =
          l.find? (fun e' => e'.1 = e.1) :=
        List.find?_cons_of_neg _ (by simpa using hne)
      unfold dictGet at ih ⊢
      rw [hstep]
      exact ih hN' he'

lemma keys_nodup_inj {l : List (String × SessionInfo)}
    {e e' : String × SessionInfo} (hN : (l.map (fun e => e.1)).Nodup)
    (he : e ∈ l) (he' : e' ∈ l) (hk : e.1 = e'.1) : e = e' := by
  have h1 := dictGet_eq_some_of_mem hN he
  have h2 := dictGet_eq_some_of_mem hN he'
  rw [hk, h2] at h1
  exact Prod.ext hk (Option.some.inj h1).symm

lemma dictSet_keys_nodup {l : List (String × SessionInfo)} {k : String}
    {v : SessionInfo} (hN : (l.map (fun e => e.1)).Nodup) :
    ((dictSet l k v).map (fun e => e.1)).Nodup := by
  unfold dictSet
  by_cases h : l.any (fun e => e.1 = k)
  · rw [if_pos h, List.map_map]
    rw [show ((fun e : String × SessionInfo => e.1) ∘
        fun e => if e.1 = k then (k, v) else e) = fun e => e.1 from funext fun e => by
      by_cases he : e.1 = k <;> simp [he]]
    exact hN
  · rw [if_neg h, List.map_append]
    rw [List.any_eq_true] at h
    push_neg at h
    refine List.Nodup.append hN (by simp) ?_
    intro a ha hb
    simp only [List.map_cons, List.map_nil, List.mem_singleton] at hb
    rcases List.mem_map.1 ha with ⟨e, he, rfl⟩
    exact h e he (by simpa using hb)

lemma mem_dictSet_elim {l : List (String × SessionInfo)} {k : String}
    {v : SessionInfo} {e' : String × SessionInfo} (h : e' ∈ dictSet l k v) :
    e' = (k, v) ∨ (e' ∈ l ∧ e'.1 ≠ k) := by
  unfold dictSet at h
  by_cases hc : l.any (fun e => e.1 = k)
  · rw [if_pos hc] at h
    rcases List.mem_map.1 h with ⟨e, he, hEq⟩
    by_cases hek : e.1 = k
    · left
      rw [← hEq]
      simp [hek]
    · right
      rw [← hEq]
      rw [if_neg hek]
      exact ⟨he, hek⟩
  · rw [if_neg hc] at h
    rw [List.any_eq_true] at hc
    push_neg at hc
    rcases List.mem_append.1 h with he | he
    · exact Or.inr ⟨he, by simpa using hc e' he⟩
    · left
      simpa using he

lemma insertByTier_perm (p : Provider) (l : List Provider) :
    (insertByTier p l).Perm (p :: l) := by
  induction l with
  | nil => simp [insertByTier]
  | cons q qs ih =>
    unfold insertByTier
    by_cases h : q.tier < p.tier
    · rw [if_pos h]
      exact (ih.cons q).trans (List.Perm.swap p q qs)
    · rw [if_neg h]

lemma sortByTier_perm (l : List Provider) : (sortByTier l).Perm l := by
  induction l with
  | nil => simp [sortByTier]
  | cons p ps ih =>
    exact (insertByTier_perm p (sortByTier ps)).trans (ih.cons p)

lemma mem_sortByTier {l : List Provider} {q : Provider} :
    q ∈ sortByTier l ↔ q ∈ l :=
  (sortByTier_perm l).mem_iff

lemma insertByTier_sorted {p : Provider} {l : List Provider}
    (hl : l.Pairwise (fun a b => a.tier ≤ b.tier)) :
    (insertByTier p l).Pairwise (fun a b => a.tier ≤ b.tier) := by
  induction l with
  | nil => simp [insertByTier]
  | cons q qs ih =>
    rcases List.pairwise_cons.1 hl with ⟨hq, hqs⟩
    unfold insertByTier
    by_cases h : q.tier < p.tier
    · rw [if_pos h]
      refine List.pairwise_cons.2 ⟨?_, ih hqs⟩
      intro x hx
      rcases List.mem_cons.1 ((insertByTier_perm p qs).mem_iff.1 hx) with rfl | hxq
      · exact Nat.le_of_lt h
      · exact hq x hxq
    · rw [if_neg h]
      refine List.pairwise_cons.2 ⟨?_, hl⟩
      intro x hx
      rcases List.mem_cons.1 hx with rfl | hxq
      · exact Nat.le_of_not_lt h
      · exact le_trans (Nat.le_of_not_lt h) (hq x hxq)

lemma sortByTier_sorted (l : List Provider) :
    (sortByTier l).Pairwise (fun a b => a.tier ≤ b.tier) := by
  induction l with
  | nil => simp [sortByTier]
  | cons p ps ih => exact insertByTier_sorted ih

lemma filter_insertByTier (p : Provider) (l : List Provider) (t : Nat) :
    (insertByTier p l).filter (fun q => q.tier = t) =
      if p.tier = t then p :: l.filter (fun q => q.tier = t)
      else l.filter (fun q => q.tier = t) := by
  induction l with
  | nil => by_cases h : p.tier = t <;> simp [insertByTier, h]
  | cons q qs ih =>
    unfold insertByTier
    by_cases h : q.tier < p.tier
    · rw [if_pos h]
      by_cases hp : p.tier = t
      · have hq : ¬ q.tier = t := by
          intro hq
          rw [hq, ← hp] at h
          exact lt_irrefl _ h
        simp only [List.filter_cons, ih, hp, if_pos, decide_eq_true_eq]
        simp [hq, hp]
      · simp only [List.filter_cons, ih, hp]
        by_cases hq : q.tier = t <;> simp [hq, hp]
    · rw [if_neg h]
      by_cases hp : p.tier = t <;> simp [List.filter_cons, hp]

lemma filter_sortByTier (l : List Provider) (t : Nat) :
    (sortByTier l).filter (fun q => q.tier = t) =
      l.filter (fun q => q.tier = t) := by
  induction l with
  | nil => simp [sortByTier]
  | cons p ps ih =>
    show (insertByTier p (sortByTier ps)).filter (fun q => q.tier = t) = _
    rw [filter_insertByTier]
    by_cases hp : p.tier = t <;> simp [hp, ih, List.filter_cons]

lemma find?_split {α : Type} {l : List α} {f : α → Bool} {p : α}
    (h : l.find? f = some p) :
    ∃ A B, l = A ++ p :: B ∧ ∀ q ∈ A, f q = false := by
  induction l with
  | nil => cases h
  | cons a l ih =>
    by_cases ha : f a
    · rw [List.find?_cons_of_pos _ ha] at h
      obtain rfl := Option.some.inj h
      exact ⟨[], l, by simp, by simp⟩
    · rw [List.find?_cons_of_neg _ (by simpa using ha)] at h
      rcases ih h with ⟨A, B, hAB, hA⟩
      refine ⟨a :: A, B, by rw [hAB]; rfl, ?_⟩
      intro q hq
      rcases List.mem_cons.1 hq with rfl | hq'
      · simpa using ha
      · exact hA q hq'

lemma find?_isSome_of_exists {α : Type} {l : List α} {f : α → Bool}
    (h : ∃ q ∈ l, f q = true) : (l.find? f).isSome := by
  rcases h with ⟨q, hq, hfq⟩
  cases hfind : l.find? f with
  | some p => simp
  | none =>
    rw [List.find?_eq_none] at hfind
    exact absurd hfq (by simpa using hfind q hq)

lemma dictGet_dictSet_self (l : List (String × SessionInfo)) (k : String)
    (v : SessionInfo) : dictGet (dictSet l k v) k = some v := by
  unfold dictSet
  by_cases h : l.any (fun e => e.1 = k)
  · rw [if_pos h]
    rcases List.any_eq_true.1 h with ⟨e, he, hek⟩
    unfold dictGet
    rw [List.find?_map]
    have hfind : (l.find? ((fun e' : String × SessionInfo => decide (e'.1 = k)) ∘
        fun e => if e.1 = k then (k, v) else e)) = l.find? (fun e => e.1 = k) := by
      refine congrArg (fun f => l.find? f) (funext fun e => ?_)
      by_cases hk : e.1 = k <;> simp [hk]
    rw [hfind]
    have : (l.find? (fun e => e.1 = k)).isSome :=
      find?_isSome_of_exists ⟨e, he, hek⟩
    rcases Option.isSome_iff_exists.1 this with ⟨f, hf⟩
    rw [hf]
    have hfk : f.1 = k := by simpa using List.find?_some hf
    simp [hfk]
  · rw [if_neg h]
    rw [List.any_eq_true] at h
    push_neg at h
    unfold dictGet
    rw [List.find?_append]
    have : l.find? (fun e => e.1 = k) = none := by
      rw [List.find?_eq_none]
      intro x hx
      simpa using h x hx
    simp [this]

lemma dictGet_dictSet_ne (l : List (String × SessionInfo)) {k k' : String}
    (v : SessionInfo) (hkk : k' ≠ k) :
    dictGet (dictSet l k v) k' = dictGet l k' := by
  unfold dictSet
  by_cases h : l.any (fun e => e.1 = k)
  · rw [if_pos h]
    unfold dictGet
    rw [List.find?_map]
    have hfind : (l.find? ((fun e' : String × SessionInfo => decide (e'.1 = k')) ∘
        fun e => if e.1 = k then (k, v) else e)) = l.find? (fun e => e.1 = k') := by
      refine congrArg (fun f => l.find? f) (funext fun e => ?_)
      by_cases hk : e.1 = k
      · simp [hk, Ne.symm hkk]
      · simp [hk]
    rw [hfind]
    cases hf : l.find? (fun e => e.1 = k') with
    | none => simp
    | some f =>
      have hfk : f.1 = k' := by simpa using List.find?_some hf
      have : ¬ f.1 = k := by rw [hfk]; exact hkk
      simp [this]
  · rw [if_neg h]
    unfold dictGet
    rw [List.find?_append]
    cases hf : l.find? (fun e => e.1 = k') with
    | some f => simp
    | none => simp [Ne.symm hkk]

lemma selectBestProvider_mem {ipHash : String → Nat} {ps : List Provider}
    {ip n : String} (h : selectBestProvider ipHash ps ip = some n) :
    ∃ p ∈ ps, p.name = n := by
  simp only [selectBestProvider] at h
  split at h
  · rename_i p hfind
    exact ⟨p, mem_sortByTier.1 (List.mem_of_find?_eq_some hfind), Option.some.inj h⟩
  · split at h
    · cases h
    · rcases Option.map_eq_some'.1 h with ⟨q, hq, rfl⟩
      have hq2 : q ∈ sortByTier ps := List.mem_of_mem_filter (List.get?_mem hq)
      exact ⟨q, mem_sortByTier.1 hq2, rfl⟩

lemma determineFailoverProvider_mem {ipHash : String → Nat} {st : ManagerState}
    {ip n : String} (h : determineFailoverProvider ipHash st ip = some n) :
    ∃ p ∈ st.providers, p.name = n := by
  unfold determineFailoverProvider at h
  split at h
  · rename_i s hget
    split at h
    · cases h
    · rename_i p hfp
      split at h
      · obtain rfl := Option.some.inj h
        rcases findProvider_mem hfp with ⟨hmem, hname⟩
        exact ⟨p, hmem, hname⟩
      · exact selectBestProvider_mem h
  · exact selectBestProvider_mem h

lemma inv_of_initOk {st : ManagerState} (h : InitOk st) : Inv st := by
  obtain ⟨hs, hN, _⟩ := h
  refine ⟨by rw [hs]; simp, hN, ?_⟩
  intro e he
  rw [hs] at he
  cases he

/-- Admitting an IP to a provider (session dictionary write plus active-set
insertion) preserves the invariant. -/
lemma inv_admit {st : ManagerState} {ip : String} {sess : SessionInfo}
    {pname : String} (hInv : Inv st) (hsess : sess.providerName = pname)
    (hp : ∃ p ∈ st.providers, p.name = pname) :
    Inv { providers := updateProvider st.providers pname
            (fun q => { q with activeIps := insert ip q.activeIps }),
          sessions := dictSet st.sessions ip sess } := by
  obtain ⟨hK, hN, hM⟩ := hInv
  refine ⟨dictSet_keys_nodup hK, ?_, ?_⟩
  · have hmap := updateProvider_map_name st.providers pname
      (fun q => { q with activeIps := insert ip q.activeIps }) (fun p => rfl)
    show ((updateProvider st.providers pname
        (fun q => { q with activeIps := insert ip q.activeIps })).map
        (fun p => p.name)).Nodup
    rw [hmap]
    exact hN
  · intro e' he'
    rcases mem_dictSet_elim he' with rfl | ⟨hmem, _⟩
    · rcases hp with ⟨p, hpmem, hpname⟩
      refine ⟨{ p with activeIps := insert ip p.activeIps }, ?_, ?_, ?_⟩
      · have := mem_updateProvider _ pname
          (fun q => { q with activeIps := insert ip q.activeIps }) hpmem
        rwa [if_pos hpname] at this
      · simpa using hpname.trans hsess.symm
      · exact Finset.mem_insert_self _ _
    · rcases hM e' hmem with ⟨q, hq, hqname, hqmem⟩
      by_cases hqp : q.name = pname
      · refine ⟨{ q with activeIps := insert ip q.activeIps }, ?_, hqname, ?_⟩
        · have := mem_updateProvider _ pname
            (fun r => { r with activeIps := insert ip r.activeIps }) hq
          rwa [if_pos hqp] at this
        · exact Finset.mem_insert_of_mem hqmem
      · refine ⟨q, ?_, hqname, hqmem⟩
        have := mem_updateProvider _ pname
          (fun r => { r with activeIps := insert ip r.activeIps }) hq
        rwa [if_neg hqp] at this

lemma inv_tryFailoverLoop {env : FetchEnv} {st : ManagerState} {ip chan : String}
    (l : List Provider) (hInv : Inv st)
    (hl : ∀ p ∈ l, ∃ q ∈ st.providers, q.name = p.name) :
    Inv (tryFailoverLoop env st ip chan l).2 := by
  induction l with
  | nil => exact hInv
  | cons p rest ih =>
    have hrest : ∀ q ∈ rest, ∃ r ∈ st.providers, r.name = q.name :=
      fun q hq => hl q (List.mem_cons_of_mem _ hq)
    unfold tryFailoverLoop
    split
    · exact ih hrest
    · split
      · exact ih hrest
      · split
        · split
          · exact ih hrest
          · exact inv_admit hInv rfl (hl p (List.mem_cons_self _ _))
        · exact ih hrest

lemma inv_tryFailoverStream {env : FetchEnv} {st : ManagerState}
    {ip chan : String} {minTier : Nat} (hInv : Inv st) :
    Inv (tryFailoverStream env st ip chan minTier).2 := by
  unfold tryFailoverStream
  by_cases hempty : (failoverCandidates st.providers minTier).isEmpty
  · rw [if_pos hempty]
    exact hInv
  · rw [if_neg hempty]
    refine inv_tryFailoverLoop _ hInv ?_
    intro p hp
    have : p ∈ st.providers :=
      List.mem_of_mem_filter (mem_sortByTier.1 hp)
    exact ⟨p, this, rfl⟩

lemma inv_handleStreamRequest {ipHash : String → Nat} {env : FetchEnv}
    {st : ManagerState} {ip uid chan : String} {now : Nat} (hInv : Inv st) :
    Inv (handleStreamRequest ipHash env st ip uid chan now).2 := by
  unfold handleStreamRequest
  split
  · exact hInv
  · rename_i pname hdet
    split
    · exact hInv
    · rename_i p hfp
      have hst1 : Inv (ManagerState.mk
          (updateProvider st.providers pname
            (fun q => { q with activeIps := insert ip q.activeIps }))
          (dictSet st.sessions ip
            (touchedSession (dictGet st.sessions ip) uid chan p.tier now pname))) :=
        inv_admit hInv rfl (determineFailoverProvider_mem hdet)
      dsimp only
      split
      · exact hst1
      · split
        · split
          · exact hst1
          · exact inv_tryFailoverStream hst1
        · exact inv_tryFailoverStream hst1

lemma inv_healthCheckProviders {outs : String → ProbeOutcome} {now : Nat}
    {st : ManagerState} (hInv : Inv st) :
    Inv (healthCheckProviders outs now st) := by
  obtain ⟨hK, hN, hM⟩ := hInv
  refine ⟨hK, ?_, ?_⟩
  · unfold healthCheckProviders
    simp only
    rw [List.map_map]
    rw [show ((fun p : Provider => p.name) ∘
        fun p => healthCheckProvider (outs p.name) now p) =
        fun p : Provider => p.name from funext fun p => rfl]
    exact hN
  · intro e he
    rcases hM e he with ⟨q, hq, hqname, hqmem⟩
    exact ⟨healthCheckProvider (outs q.name) now q,
      List.mem_map_of_mem _ hq, hqname, hqmem⟩

lemma discardExpired_cons (e : String × SessionInfo)
    (ex : List (String × SessionInfo)) (ps : List Provider) :
    discardExpired (e :: ex) ps =
      discardExpired ex
        (if (findProvider ps e.2.providerName).isSome then
          updateProvider ps e.2.providerName
            (fun p => { p with activeIps := p.activeIps.erase e.1 })
        else ps) := by
  rfl

lemma discardExpired_names (ex : List (String × SessionInfo))
    (ps : List Provider) :
    (discardExpired ex ps).map (fun p => p.name) = ps.map (fun p => p.name) := by
  induction ex generalizing ps with
  | nil => rfl
  | cons e ex ih =>
    rw [discardExpired_cons, ih]
    by_cases h : (findProvider ps e.2.providerName).isSome
    · rw [if_pos h]
      exact updateProvider_map_name ps e.2.providerName
        (fun q => { q with activeIps := q.activeIps.erase e.1 })
        (fun q => rfl)
    · rw [if_neg h]

/-- Running the expiry discard loop maps each provider to a provider with
the same identity fields whose active set has lost exactly the IPs of the
expired sessions assigned to it. -/
lemma mem_discardExpired (ex : List (String × SessionInfo))
    {ps : List Provider} {p : Provider} (hp : p ∈ ps) :
    ∃ p' ∈ discardExpired ex ps, p'.name = p.name ∧ p'.tier = p.tier ∧
      p'.maxConcurrentIps = p.maxConcurrentIps ∧
      p'.healthStatus = p.healthStatus ∧
      p'.activeIps = p.activeIps \
        ((ex.filter (fun e => e.2.providerName = p.name)).map
          (fun e => e.1)).toFinset := by
  induction ex generalizing ps p with
  | nil => exact ⟨p, hp, rfl, rfl, rfl, rfl, by simp⟩
  | cons e ex ih =>
    rw [discardExpired_cons]
    by_cases hcond : e.2.providerName = p.name
    · have hsome : (findProvider ps e.2.providerName).isSome :=
        findProvider_isSome hp hcond.symm
      rw [if_pos hsome]
      have hp1 : ({ p with activeIps := p.activeIps.erase e.1 } : Provider) ∈
          updateProvider ps e.2.providerName
            (fun q => { q with activeIps := q.activeIps.erase e.1 }) := by
        have := mem_updateProvider _ e.2.providerName
          (fun q => { q with activeIps := q.activeIps.erase e.1 }) hp
        rwa [if_pos hcond.symm] at this
      rcases ih hp1 with ⟨p', hp', hname, htier, hmax, hhs, hact⟩
      dsimp only at hname htier hmax hhs hact
      refine ⟨p', hp', hname, htier, hmax, hhs, ?_⟩
      rw [hact]
      have hfilter : (e :: ex).filter
          (fun e' => e'.2.providerName = p.name) =
          e :: ex.filter (fun e' => e'.2.providerName = p.name) := by
        simp [List.filter_cons, hcond]
      rw [hfilter]
      ext x
      simp only [Finset.mem_sdiff, Finset.mem_erase, List.map_cons,
        List.toFinset_cons, Finset.mem_insert]
      tauto
    · have hfilter : (e :: ex).filter
          (fun e' => e'.2.providerName = p.name) =
          ex.filter (fun e' => e'.2.providerName = p.name) := by
        simp [List.filter_cons, hcond]
      by_cases hsome : (findProvider ps e.2.providerName).isSome
      · rw [if_pos hsome]
        have hp1 : p ∈ updateProvider ps e.2.providerName
            (fun q => { q with activeIps := q.activeIps.erase e.1 }) := by
          have := mem_updateProvider _ e.2.providerName
            (fun q => { q with activeIps := q.activeIps.erase e.1 }) hp
          rwa [if_neg (fun hEq => hcond hEq.symm)] at this
        rcases ih hp1 with ⟨p', hp', hname, htier, hmax, hhs, hact⟩
        exact ⟨p', hp', hname, htier, hmax, hhs, by rw [hact, hfilter]⟩
      · rw [if_neg hsome]
        rcases ih hp with ⟨p', hp', hname, htier, hmax, hhs, hact⟩
        exact ⟨p', hp', hname, htier, hmax, hhs, by rw [hact, hfilter]⟩

lemma inv_cleanupExpiredSessions {now : Nat} {st : ManagerState}
    (hInv : Inv st) : Inv (cleanupExpiredSessions now st) := by
  obtain ⟨hK, hN, hM⟩ := hInv
  refine ⟨?_, ?_, ?_⟩
  · unfold cleanupExpiredSessions
    exact List.Nodup.sublist (List.Sublist.map _ (List.filter_sublist _)) hK
  · unfold cleanupExpiredSessions
    simp only
    rw [discardExpired_names]
    exact hN
  · intro e he
    unfold cleanupExpiredSessions at he
    simp only at he
    have hkept := List.mem_filter.1 he
    rcases hM e hkept.1 with ⟨p, hp, hpname, hpmem⟩
    rcases mem_discardExpired
        (st.sessions.filter (fun e' => e'.2.lastActivity < sessionCutoff now)) hp
      with ⟨p', hp', hname, _, _, _, hact⟩
    refine ⟨p', hp', hname.trans hpname, ?_⟩
    rw [hact]
    rw [Finset.mem_sdiff]
    refine ⟨hpmem, ?_⟩
    intro hK'
    rcases List.mem_toFinset.1 hK' with hm
    rcases List.mem_map.1 hm with ⟨e', he', hkey⟩
    have he'1 := List.mem_of_mem_filter (List.mem_of_mem_filter he')
    have : e' = e := keys_nodup_inj hK he'1 hkept.1 hkey
    rw [this] at he'
    have hexp := (List.mem_filter.1 (List.mem_of_mem_filter he')).2
    have hnotexp := hkept.2
    simp only [decide_eq_true_eq] at hexp hnotexp
    exact hnotexp hexp

lemma inv_step {st st' : ManagerState} (hInv : Inv st) (h : Step st st') :
    Inv st' := by
  cases h with
  | request ipHash env ip uid chan now st => exact inv_handleStreamRequest hInv
  | health outs now st => exact inv_healthCheckProviders hInv
  | cleanup now st => exact inv_cleanupExpiredSessions hInv

lemma inv_of_reachable {init st : ManagerState} (h0 : InitOk init)
    (h : Reachable init st) : Inv st := by
  induction h with
  | refl => exact inv_of_initOk h0
  | step hreach hstep ih => exact inv_step ih hstep

lemma map_nodup_inj {α β : Type} {l : List α} {f : α → β}
    (hN : (l.map f).Nodup) {x y : α} (hx : x ∈ l) (hy : y ∈ l)
    (h : f x = f y) : x = y := by
  induction l with
  | nil => cases hx
  | cons a l ih =>
    rw [List.map_cons] at hN
    have hN' := List.nodup_cons.1 hN
    rcases List.mem_cons.1 hx with rfl | hx'
    · rcases List.mem_cons.1 hy with rfl | hy'
      · rfl
      · exfalso
        apply hN'.1
        rw [h]
        exact List.mem_map_of_mem f hy'
    · rcases List.mem_cons.1 hy with rfl | hy'
      · exfalso
        apply hN'.1
        rw [← h]
        exact List.mem_map_of_mem f hx'
      · exact ih hN'.2 hx' hy'

lemma selectBestProvider_eq_of_find {ipHash : String → Nat} {ps : List Provider}
    {ip : String} {p : Provider}
    (hfind : (sortByTier ps).find? eligProvider = some p) :
    selectBestProvider ipHash ps ip = some p.name := by
  simp only [selectBestProvider, hfind]

lemma determine_no_sticky {ipHash : String → Nat} {st : ManagerState}
    {ip : String}
    (hns : ∀ s, dictGet st.sessions ip = some s →
      ∃ p, findProvider st.providers s.providerName = some p ∧
        ¬ (p.healthStatus = "healthy" ∧ p.activeIps.card ≤ p.maxConcurrentIps)) :
    determineFailoverProvider ipHash st ip =
      selectBestProvider ipHash st.providers ip := by
  unfold determineFailoverProvider
  split
  · rename_i s hget
    rcases hns s hget with ⟨p, hp, hcond⟩
    split
    · rename_i hfp
      rw [hp] at hfp
      cases hfp
    · rename_i q hq
      rw [hp] at hq
      obtain rfl := Option.some.inj hq
      rw [if_neg hcond]
  · rfl

lemma tryFailoverLoop_all_fail {env : FetchEnv} {st : ManagerState}
    {ip chan : String} {l : List Provider}
    (h : ∀ p ∈ l, attemptOk env st ip chan p = false) :
    tryFailoverLoop env st ip chan l = (⟨503, none, none, false⟩, st) := by
  induction l with
  | nil => rfl
  | cons p rest ih =>
    have hrest : ∀ q ∈ rest, attemptOk env st ip chan q = false :=
      fun q hq => h q (List.mem_cons_of_mem _ hq)
    unfold tryFailoverLoop
    split
    · exact ih hrest
    · rename_i url hres
      split
      · exact ih hrest
      · rename_i s hfetch
        split
        · rename_i hs
          split
          · exact ih hrest
          · rename_i sess hget
            exfalso
            have htrue : attemptOk env st ip chan p = true := by
              simp only [attemptOk, hres, hfetch, hget, hs]
              simp
            rw [h p (List.mem_cons_self _ _)] at htrue
            cases htrue
        · exact ih hrest

end IPFailover

namespace HealthChecker

lemma minByRt_cons (s r : StreamHealth) (rest : List StreamHealth) :
    minByRt s (r :: rest) =
      minByRt (if r.responseTime < s.responseTime then r else s) rest := rfl

lemma minByRt_mem (s : StreamHealth) (rest : List StreamHealth) :
    minByRt s rest ∈ s :: rest := by
  induction rest generalizing s with
  | nil => simp [minByRt]
  | cons r rest ih =>
    rw [minByRt_cons]
    by_cases h : r.responseTime < s.responseTime
    · rw [if_pos h]
      exact List.mem_cons_of_mem s (ih r)
    · rw [if_neg h]
      rcases List.mem_cons.1 (ih s) with h' | h'
      · rw [h']
        exact List.mem_cons_self _ _
      · exact List.mem_cons_of_mem _ (List.mem_cons_of_mem _ h')

lemma minByRt_le (s : StreamHealth) (rest : List StreamHealth) :
    ∀ x ∈ s :: rest, (minByRt s rest).responseTime ≤ x.responseTime := by
  induction rest generalizing s with
  | nil =>
    intro x hx
    rcases List.mem_cons.1 hx with rfl | h'
    · exact le_refl _
    · cases h'
  | cons r rest ih =>
    intro x hx
    rw [minByRt_cons]
    by_cases h : r.responseTime < s.responseTime
    · rw [if_pos h]
      rcases List.mem_cons.1 hx with h1 | hx'
      · rw [h1]
        exact le_trans (ih r r (List.mem_cons_self _ _)) (le_of_lt h)
      · rcases List.mem_cons.1 hx' with h2 | hx''
        · rw [h2]
          exact ih r r (List.mem_cons_self _ _)
        · exact ih r x (List.mem_cons_of_mem _ hx'')
    · rw [if_neg h]
      rcases List.mem_cons.1 hx with h1 | hx'
      · rw [h1]
        exact ih s s (List.mem_cons_self _ _)
      · rcases List.mem_cons.1 hx' with h2 | hx''
        · rw [h2]
          exact le_trans (ih s s (List.mem_cons_self _ _)) (le_of_not_lt h)
        · exact ih s x (List.mem_cons_of_mem _ hx'')

lemma maxByRt_cons (s r : StreamHealth) (rest : List StreamHealth) :
    maxByRt s (r :: rest) =
      maxByRt (if s.responseTime < r.responseTime then r else s) rest := rfl

lemma maxByRt_mem (s : StreamHealth) (rest : List StreamHealth) :
    maxByRt s rest ∈ s :: rest := by
  induction rest generalizing s with
  | nil => simp [maxByRt]
  | cons r rest ih =>
    rw [maxByRt_cons]
    by_cases h : s.responseTime < r.responseTime
    · rw [if_pos h]
      exact List.mem_cons_of_mem s (ih r)
    · rw [if_neg h]
      rcases List.mem_cons.1 (ih s) with h' | h'
      · rw [h']
        exact List.mem_cons_self _ _
      · exact List.mem_cons_of_mem _ (List.mem_cons_of_mem _ h')

lemma maxByRt_ge (s : StreamHealth) (rest : List StreamHealth) :
    ∀ x ∈ s :: rest, x.responseTime ≤ (maxByRt s rest).responseTime := by
  induction rest generalizing s with
  | nil =>
    intro x hx
    rcases List.mem_cons.1 hx with rfl | h'
    · exact le_refl _
    · cases h'
  | cons r rest ih =>
    intro x hx
    rw [maxByRt_cons]
    by_cases h : s.responseTime < r.responseTime
    · rw [if_pos h]
      rcases List.mem_cons.1 hx with h1 | hx'
      · rw [h1]
        exact le_trans (le_of_lt h) (ih r r (List.mem_cons_self _ _))
      · rcases List.mem_cons.1 hx' with h2 | hx''
        · rw [h2]
          exact ih r r (List.mem_cons_self _ _)
        · exact ih r x (List.mem_cons_of_mem _ hx'')
    · rw [if_neg h]
      rcases List.mem_cons.1 hx with h1 | hx'
      · rw [h1]
        exact ih s s (List.mem_cons_self _ _)
      · rcases List.mem_cons.1 hx' with h2 | hx''
        · rw [h2]
          exact le_trans (le_of_not_lt h) (ih s s (List.mem_cons_self _ _))
        · exact ih s x (List.mem_cons_of_mem _ hx'')

end HealthChecker

open IPFailover HealthChecker NetOps

/-- C1: Sticky assignment — for an IP with an existing session whose
provider is registered, has health status "healthy" and occupancy strictly
below capacity, `determine_failover_provider` returns that same provider;
being a pure function of the state, repeated calls under the same conditions
return the same provider. -/
theorem c1_sticky_assignment (ipHash : String → Nat) (st : ManagerState)
    (ip : String) (s : SessionInfo) (p : Provider)
    (hs : dictGet st.sessions ip = some s)
    (hp : findProvider st.providers s.providerName = some p)
    (hhealthy : p.healthStatus = "healthy")
    (hcap : p.activeIps.card < p.maxConcurrentIps) :
    determineFailoverProvider ipHash st ip = some s.providerName := by
  simp only [determineFailoverProvider, hs, hp]
  rw [if_pos ⟨hhealthy, Nat.le_of_lt hcap⟩]

/-- Witness for C1 at a concrete one-provider state. -/
theorem c1_sticky_assignment_witness :
    determineFailoverProvider (fun _ => 0) c1State "9.9.9.9" = some "A" :=
  c1_sticky_assignment (fun _ => 0) c1State "9.9.9.9" c1Session c1Provider
    rfl rfl rfl (by decide)

/-- C4: When no sticky assignment applies, `determine_failover_provider`
returns the first provider, in ascending tier order with ties broken by
registration order, whose health is "healthy" or "unknown" and whose
occupancy is strictly below capacity: the chosen provider is eligible, every
provider of strictly smaller tier is ineligible, and every provider of the
same tier registered earlier is ineligible (hence with all providers healthy
and under capacity the lowest-tier, earliest-registered provider wins). -/
theorem c4_tier_order_selection (ipHash : String → Nat) (st : ManagerState)
    (ip : String)
    (hns : ∀ s, dictGet st.sessions ip = some s →
      ∃ p, findProvider st.providers s.providerName = some p ∧
        ¬ (p.healthStatus = "healthy" ∧ p.activeIps.card ≤ p.maxConcurrentIps))
    (hex : ∃ q ∈ st.providers, eligProvider q = true) :
    ∃ p ∈ st.providers,
      determineFailoverProvider ipHash st ip = some p.name ∧
      eligProvider p = true ∧
      (∀ q ∈ st.providers, q.tier < p.tier → eligProvider q = false) ∧
      (∃ pre post,
        st.providers.filter (fun q => q.tier = p.tier) = pre ++ p :: post ∧
        ∀ q ∈ pre, eligProvider q = false) := by
  rcases hex with ⟨q0, hq0, helig0⟩
  have hsome : ((sortByTier st.providers).find? eligProvider).isSome :=
    find?_isSome_of_exists ⟨q0, mem_sortByTier.2 hq0, helig0⟩
  rcases Option.isSome_iff_exists.1 hsome with ⟨p, hfind⟩
  have hpelig : eligProvider p = true := List.find?_some hfind
  have hpmem : p ∈ st.providers :=
    mem_sortByTier.1 (List.mem_of_find?_eq_some hfind)
  rcases find?_split hfind with ⟨A, B, hAB, hA⟩
  have hsorted := sortByTier_sorted st.providers
  rw [hAB] at hsorted
  rcases List.pairwise_append.1 hsorted with ⟨_, hPB, _⟩
  have hpB : ∀ b ∈ B, p.tier ≤ b.tier := (List.pairwise_cons.1 hPB).1
  refine ⟨p, hpmem, ?_, hpelig, ?_, ?_⟩
  · rw [determine_no_sticky hns]
    exact selectBestProvider_eq_of_find hfind
  · intro q hq hlt
    have hqS : q ∈ sortByTier st.providers := mem_sortByTier.2 hq
    rw [hAB] at hqS
    rcases List.mem_append.1 hqS with hqA | hqPB
    · exact hA q hqA
    · rcases List.mem_cons.1 hqPB with h1 | hqB
      · exact absurd (h1 ▸ hlt) (lt_irrefl _)
      · exact absurd hlt (not_lt_of_le (hpB q hqB))
  · have hfs := filter_sortByTier st.providers p.tier
    rw [hAB, List.filter_append, List.filter_cons] at hfs
    have hpt : (decide (p.tier = p.tier)) = true := by simp
    rw [hpt] at hfs
    simp only [if_pos] at hfs
    refine ⟨A.filter (fun q => q.tier = p.tier),
      B.filter (fun q => q.tier = p.tier), hfs.symm, ?_⟩
    intro q hq
    exact hA q (List.mem_of_mem_filter hq)

/-- Witness for C4: providers registered as full tier-0 "X", free tier-1
"Y", free tier-0 "Z" — the selection must pick "Z". -/
theorem c4_tier_order_selection_witness :
    ∃ p ∈ c4State.providers,
      determineFailoverProvider (fun _ => 0) c4State "8.8.8.8" = some p.name ∧
      eligProvider p = true ∧
      (∀ q ∈ c4State.providers, q.tier < p.tier → eligProvider q = false) ∧
      (∃ pre post,
        c4State.providers.filter (fun q => q.tier = p.tier) = pre ++ p :: post ∧
        ∀ q ∈ pre, eligProvider q = false) :=
  c4_tier_order_selection (fun _ => 0) c4State "8.8.8.8"
    (fun s hs => by cases hs) (by decide)

/-- C5: The escalation path builds its candidate list as exactly the
providers with tier ≥ `min_tier` and health ≠ "offline", ordered by
ascending tier, and when every candidate attempt fails (or no candidate
exists) it returns a plain 503 response with the state unchanged — the
function is total, so no exception reaches the caller. -/
theorem c5_escalation_candidates (env : FetchEnv) (st : ManagerState)
    (ip chan : String) (minTier : Nat) :
    (∀ p, p ∈ failoverCandidates st.providers minTier ↔
      p ∈ st.providers ∧ minTier ≤ p.tier ∧ p.healthStatus ≠ "offline") ∧
    (failoverCandidates st.providers minTier).Pairwise
      (fun a b => a.tier ≤ b.tier) ∧
    ((∀ p ∈ failoverCandidates st.providers minTier,
        attemptOk env st ip chan p = false) →
      (tryFailoverStream env st ip chan minTier).1.status = 503 ∧
      (tryFailoverStream env st ip chan minTier).2 = st) := by
  refine ⟨?_, ?_, ?_⟩
  · intro p
    unfold failoverCandidates
    rw [mem_sortByTier, List.mem_filter]
    simp [Bool.and_eq_true, decide_eq_true_eq, and_assoc]
  · exact sortByTier_sorted _
  · intro hfail
    simp only [tryFailoverStream]
    split
    · exact ⟨rfl, rfl⟩
    · rw [tryFailoverLoop_all_fail hfail]
      exact ⟨rfl, rfl⟩

/-- Witness for C5 at a concrete state in which no attempt can succeed. -/
theorem c5_escalation_candidates_witness :
    (tryFailoverStream c5Env c5State "6.6.6.6" "ch" 0).1.status = 503 ∧
    (tryFailoverStream c5Env c5State "6.6.6.6" "ch" 0).2 = c5State :=
  (c5_escalation_candidates c5Env c5State "6.6.6.6" "ch" 0).2.2 (by decide)

/-- C2 counterexample: from a fresh two-provider configuration, two stream
requests from the same IP (the second re-selected because the provider's
health is still "unknown", which fails the sticky check) leave the IP in the
active-IP sets of both providers simultaneously — the claimed invariant is
violated in a reachable state, because reassignment never removes the IP
from the previous provider's set. -/
theorem c2_counterexample :
    InitOk cexInit ∧ Reachable cexInit cexSt2 ∧
    (∃ p ∈ cexSt2.providers, p.name = "A" ∧ "7.7.7.7" ∈ p.activeIps) ∧
    (∃ p ∈ cexSt2.providers, p.name = "B" ∧ "7.7.7.7" ∈ p.activeIps) := by
  refine ⟨⟨rfl, by decide, by decide⟩, ?_, by decide, by decide⟩
  exact Reachable.step
    (Reachable.step Reachable.refl
      (Step.request cexHash cexEnv "7.7.7.7" "u" "ch" 0 cexInit))
    (Step.request cexHash cexEnv "7.7.7.7" "u" "ch" 1 cexSt1)

/-- C2 amended: in every reachable state each IP has at most one active
session (session keys are unique) and its session's IP is counted in its
assigned provider's active-IP set; uniqueness of the *counting* does not
hold — after a reassignment an IP may remain in the previous provider's
active-IP set as well (see the counterexample). -/
theorem c2_one_assignment_per_ip (init st : ManagerState)
    (h0 : InitOk init) (h : Reachable init st) :
    (st.sessions.map (fun e => e.1)).Nodup ∧
    ∀ e ∈ st.sessions, ∃ p ∈ st.providers,
      p.name = e.2.providerName ∧ e.1 ∈ p.activeIps := by
  obtain ⟨hK, _, hM⟩ := inv_of_reachable h0 h
  exact ⟨hK, hM⟩

/-- Witness for the amended C2 at the concrete two-provider trace. -/
theorem c2_one_assignment_per_ip_witness :
    (cexSt2.sessions.map (fun e => e.1)).Nodup ∧
    ∀ e ∈ cexSt2.sessions, ∃ p ∈ cexSt2.providers,
      p.name = e.2.providerName ∧ e.1 ∈ p.activeIps :=
  c2_one_assignment_per_ip cexInit cexSt2 ⟨rfl, by decide, by decide⟩
    (Reachable.step
      (Reachable.step Reachable.refl
        (Step.request cexHash cexEnv "7.7.7.7" "u" "ch" 0 cexInit))
      (Step.request cexHash cexEnv "7.7.7.7" "u" "ch" 1 cexSt1))

/-- C10: Under the state invariant (which every reachable state satisfies),
`cleanup_expired_sessions` removes exactly the sessions whose last activity
is older than the 30-minute cutoff, removes each expired session's IP from
its assigned provider's active-IP set, and decreases each provider's
occupancy by exactly the number of its expired sessions — one per expired
session; sessions at or after the cutoff are left in place unchanged. -/
theorem c10_session_expiry (now : Nat) (st : ManagerState) (hInv : Inv st) :
    (∀ e ∈ st.sessions, e.2.lastActivity < sessionCutoff now →
      dictGet (cleanupExpiredSessions now st).sessions e.1 = none ∧
      ∀ p' ∈ (cleanupExpiredSessions now st).providers,
        p'.name = e.2.providerName → e.1 ∉ p'.activeIps) ∧
    (∀ e ∈ st.sessions, ¬ e.2.lastActivity < sessionCutoff now →
      dictGet (cleanupExpiredSessions now st).sessions e.1 = some e.2) ∧
    (∀ p ∈ st.providers, ∃ p' ∈ (cleanupExpiredSessions now st).providers,
      p'.name = p.name ∧
      p.activeIps.card = p'.activeIps.card +
        ((st.sessions.filter
            (fun e => e.2.lastActivity < sessionCutoff now)).filter
          (fun e => e.2.providerName = p.name)).length) := by
  obtain ⟨hK, hN, hM⟩ := hInv
  refine ⟨?_, ?_, ?_⟩
  · intro e he hexp
    constructor
    · show ((st.sessions.filter
          (fun e => ¬ e.2.lastActivity < sessionCutoff now)).find?
          (fun x => x.1 = e.1)).map (fun x => x.2) = none
      rw [List.find?_eq_none.2]
      · rfl
      · intro x hx
        rcases List.mem_filter.1 hx with ⟨hx1, hx2⟩
        intro hkey
        have hxe : x = e := keys_nodup_inj hK hx1 he (by simpa using hkey)
        rw [hxe] at hx2
        simp only [decide_eq_true_eq] at hx2
        exact hx2 hexp
    · intro p' hp' hpname
      rcases hM e he with ⟨q, hq, hqname, _⟩
      rcases mem_discardExpired
          (st.sessions.filter (fun e' => e'.2.lastActivity < sessionCutoff now))
          hq with ⟨q', hq', hq'name, _, _, _, hq'act⟩
      have hNres : (((cleanupExpiredSessions now st).providers).map
          (fun p => p.name)).Nodup := by
        show ((discardExpired _ st.providers).map (fun p => p.name)).Nodup
        rw [discardExpired_names]
        exact hN
      have hpq : p' = q' := map_nodup_inj hNres hp' hq'
        (by rw [hq'name, hqname, hpname])
      rw [hpq, hq'act]
      intro hmem
      rw [Finset.mem_sdiff] at hmem
      apply hmem.2
      rw [List.mem_toFinset]
      refine List.mem_map.2 ⟨e, ?_, rfl⟩
      rw [List.mem_filter]
      refine ⟨List.mem_filter.2 ⟨he, by simpa using hexp⟩, ?_⟩
      rw [hqname]
      simp
  · intro e he hkeep
    have hmem : e ∈ st.sessions.filter
        (fun e => ¬ e.2.lastActivity < sessionCutoff now) :=
      List.mem_filter.2 ⟨he, by simpa using hkeep⟩
    have hKkept : ((st.sessions.filter
        (fun e => ¬ e.2.lastActivity < sessionCutoff now)).map
        (fun e => e.1)).Nodup :=
      List.Nodup.sublist (List.Sublist.map _ (List.filter_sublist _)) hK
    exact dictGet_eq_some_of_mem hKkept hmem
  · intro p hp
    rcases mem_discardExpired
        (st.sessions.filter (fun e' => e'.2.lastActivity < sessionCutoff now))
        hp with ⟨p', hp', hname, _, _, _, hact⟩
    refine ⟨p', hp', hname, ?_⟩
    have hKnodup : (((st.sessions.filter
        (fun e' => e'.2.lastActivity < sessionCutoff now)).filter
        (fun e => e.2.providerName = p.name)).map (fun e => e.1)).Nodup := by
      refine List.Nodup.sublist (List.Sublist.map _ ?_) hK
      exact (List.filter_sublist _).trans (List.filter_sublist _)
    have hKsub : ((((st.sessions.filter
        (fun e' => e'.2.lastActivity < sessionCutoff now)).filter
        (fun e => e.2.providerName = p.name)).map
        (fun e => e.1)).toFinset : Finset String) ⊆ p.activeIps := by
      intro x hx
      rcases List.mem_map.1 (List.mem_toFinset.1 hx) with ⟨e, he, rfl⟩
      have heS : e ∈ st.sessions :=
        List.mem_of_mem_filter (List.mem_of_mem_filter he)
      have he2 : e.2.providerName = p.name := by
        simpa using (List.mem_filter.1 he).2
      rcases hM e heS with ⟨q, hq, hqname, hqmem⟩
      have : q = p := map_nodup_inj hN hq hp (by rw [hqname, he2])
      rw [← this]
      exact hqmem
    have hle := Finset.card_le_card hKsub
    rw [hact, Finset.card_sdiff hKsub,
      List.toFinset_card_of_nodup hKnodup, List.length_map]
    rw [List.toFinset_card_of_nodup hKnodup, List.length_map] at hle
    omega

/-- Witness for C10: one provider holding two IPs, one stale session,
cleanup at minute 100. -/
theorem c10_session_expiry_witness :
    (∀ e ∈ c10State.sessions, e.2.lastActivity < sessionCutoff 100 →
      dictGet (cleanupExpiredSessions 100 c10State).sessions e.1 = none ∧
      ∀ p' ∈ (cleanupExpiredSessions 100 c10State).providers,
        p'.name = e.2.providerName → e.1 ∉ p'.activeIps) ∧
    (∀ e ∈ c10State.sessions, ¬ e.2.lastActivity < sessionCutoff 100 →
      dictGet (cleanupExpiredSessions 100 c10State).sessions e.1 = some e.2) ∧
    (∀ p ∈ c10State.providers,
      ∃ p' ∈ (cleanupExpiredSessions 100 c10State).providers,
      p'.name = p.name ∧
      p.activeIps.card = p'.activeIps.card +
        ((c10State.sessions.filter
            (fun e => e.2.lastActivity < sessionCutoff 100)).filter
          (fun e => e.2.providerName = p.name)).length) :=
  c10_session_expiry 100 c10State ⟨by decide, by decide, by decide⟩

/-- C3 counterexample: with the chain a → b → c (two 302 hops, then 200),
the probe of "a" returns the classification of "c" — two hops were
followed, so redirects are not limited to a single hop; the one-hop probe
modelled from the spec classifies the same input "offline" instead. -/
theorem c3_counterexample :
    (checkStreamHealth c3Env 10 "a").status = "online" ∧
    (checkStreamHealth c3Env 10 "a").url = "c" ∧
    (checkStreamHealthOneHop c3Env "a").status = "offline" ∧
    (checkStreamHealthOneHop c3Env "a").url = "b" := by
  refine ⟨?_, ?_, ?_, ?_⟩ <;> decide

/-- C3 amended: a 3xx response (301/302/307/308) carrying a `Location`
header makes the probe resubmit against the target by a full recursive call,
with no hop counter: a chain of n redirects is followed n hops, bounded only
by the interpreter's recursion limit (whose exhaustion surfaces as an
"error" classification, fuel 0 in the model). -/
theorem c3_redirect_recursion (env : ProbeEnv) (fuel : Nat)
    (url target : String) (s : Nat) (ct : Option String) (cl : Nat)
    (hvalid : env.validUrl url = true)
    (hs : s = 301 ∨ s = 302 ∨ s = 307 ∨ s = 308)
    (hhead : env.head url = .resp s (some target) ct cl) :
    checkStreamHealth env (fuel + 1) url = checkStreamHealth env fuel target := by
  have h200 : ¬ s = 200 := by
    rcases hs with rfl | rfl | rfl | rfl <;> decide
  unfold checkStreamHealth
  rw [if_pos hvalid]
  simp only [hhead]
  rw [if_neg h200, if_pos hs]
  cases fuel with
  | zero => rfl
  | succ n => rfl

/-- Witness for the amended C3: the first hop of the concrete chain. -/
theorem c3_redirect_recursion_witness :
    checkStreamHealth c3Env 10 "a" = checkStreamHealth c3Env 9 "b" :=
  c3_redirect_recursion c3Env 9 "a" "b" 302 none 0 rfl
    (Or.inr (Or.inl rfl)) (by decide)

/-- C6 counterexample: the upstream proxy fetch of `handle_stream_request`
and the playlist fetch of `get_channel_stream_from_m3u` are network
operations that carry no explicit timeout, refuting "every network
operation carries an explicit timeout". -/
theorem c6_missing_timeout_counterexample :
    proxyStreamFetch ∈ netOps ∧ proxyStreamFetch.timeoutSeconds = none ∧
    playlistFetch ∈ netOps ∧ playlistFetch.timeoutSeconds = none :=
  ⟨by decide, rfl, by decide, rfl⟩

/-- C6 amended: the provider health probe (30 s), the escalation stream
fetch (10 s) and the stream-probe client session (10 s default) carry
explicit timeouts, while the upstream proxy fetch and the playlist fetch
carry none; a stream probe whose request times out is classified
"timeout". -/
theorem c6_explicit_timeouts (env : ProbeEnv) (url : String) (fuel : Nat)
    (hvalid : env.validUrl url = true)
    (htimeout : env.head url = .timeoutErr) :
    netOps.filter (fun op => op.timeoutSeconds.isSome) =
      [providerHealthProbe, escalationStreamFetch, streamProbeSession] ∧
    netOps.filter (fun op => ¬ op.timeoutSeconds.isSome) =
      [proxyStreamFetch, playlistFetch] ∧
    (checkStreamHealth env (fuel + 1) url).status = "timeout" := by
  refine ⟨by decide, by decide, ?_⟩
  unfold checkStreamHealth
  rw [if_pos hvalid]
  simp only [htimeout]

/-- Witness for the amended C6 with an always-timing-out probe oracle. -/
theorem c6_explicit_timeouts_witness :
    netOps.filter (fun op => op.timeoutSeconds.isSome) =
      [providerHealthProbe, escalationStreamFetch, streamProbeSession] ∧
    netOps.filter (fun op => ¬ op.timeoutSeconds.isSome) =
      [proxyStreamFetch, playlistFetch] ∧
    (checkStreamHealth c6Env (0 + 1) "http://u").status = "timeout" :=
  c6_explicit_timeouts c6Env "http://u" 0 rfl rfl

/-- C7 counterexample: on a probe that raises (timeout or transport error)
the provider's health and timestamp are updated but no latency is measured
or recorded — refuting "latency recorded unconditionally, including on
failure". -/
theorem c7_latency_not_recorded_on_failure :
    probeLatencyRecorded 0 (.failure "connection reset") = none ∧
    (healthCheckProvider (.failure "connection reset") 5
      c7Provider).lastHealthCheck = some 5 ∧
    (healthCheckProvider (.failure "connection reset") 5
      c7Provider).healthStatus = "offline" :=
  ⟨rfl, rfl, rfl⟩

/-- C7 amended: HTTP 200 → "healthy"; 502/503/504 → "degraded"; any other
status → "offline"; a timeout or transport error (exception path) →
"offline"; the last-checked timestamp is set unconditionally on both paths;
latency is measured only on the response path and never on the exception
path. -/
theorem c7_probe_classification (now : Nat) (rt : ℚ) (p : Provider) :
    ((healthCheckProvider (.resp 200) now p).healthStatus = "healthy") ∧
    (∀ s, s = 502 ∨ s = 503 ∨ s = 504 →
      (healthCheckProvider (.resp s) now p).healthStatus = "degraded") ∧
    (∀ s, ¬ s = 200 → ¬ (s = 502 ∨ s = 503 ∨ s = 504) →
      (healthCheckProvider (.resp s) now p).healthStatus = "offline") ∧
    (∀ msg, (healthCheckProvider (.failure msg) now p).healthStatus =
      "offline") ∧
    (∀ out, (healthCheckProvider out now p).lastHealthCheck = some now) ∧
    (∀ s, probeLatencyRecorded rt (.resp s) = some rt) ∧
    (∀ msg, probeLatencyRecorded rt (.failure msg) = none) := by
  refine ⟨rfl, ?_, ?_, fun msg => rfl, fun out => rfl,
    fun s => rfl, fun msg => rfl⟩
  · intro s hs
    rcases hs with rfl | rfl | rfl <;> rfl
  · intro s h200 hgw
    show (if s = 200 then "healthy"
      else if s = 502 ∨ s = 503 ∨ s = 504 then "degraded"
      else "offline") = "offline"
    rw [if_neg h200, if_neg hgw]

/-- Witness for the amended C7 at gateway and client-error statuses. -/
theorem c7_probe_classification_witness :
    (healthCheckProvider (.resp 503) 5 c7Provider).healthStatus =
      "degraded" ∧
    (healthCheckProvider (.resp 404) 5 c7Provider).healthStatus =
      "offline" :=
  ⟨(c7_probe_classification 5 1 c7Provider).2.1 503 (Or.inr (Or.inl rfl)),
   (c7_probe_classification 5 1 c7Provider).2.2.1 404 (by decide) (by decide)⟩

/-- C8 counterexample: with one online stream out of two, the computed
success rate is 50 — a percentage — not the ratio 1/2 the claim states. -/
theorem c8_success_rate_counterexample :
    (mkChannelHealthReport "c" "i" [c8s1, c8s2]).successRate = 50 ∧
    ¬ (mkChannelHealthReport "c" "i" [c8s1, c8s2]).successRate = 1 / 2 := by
  have hf : List.filter (fun s => s.status = "online") [c8s1, c8s2] =
      [c8s1] := by decide
  have h : (mkChannelHealthReport "c" "i" [c8s1, c8s2]).successRate =
      (1 : ℚ) / 2 * 100 := by
    show ((List.filter (fun s => s.status = "online")
        [c8s1, c8s2]).length : ℚ) / ([c8s1, c8s2] : List StreamHealth).length
        * 100 = (1 : ℚ) / 2 * 100
    rw [hf]
    norm_num
  rw [h]
  norm_num

/-- C8 amended: for a channel with a non-empty stream list the success rate
equals online/total × 100 (a percentage); best and worst streams are the
first streams attaining the minimum resp. maximum latency among online
streams only, and both are empty exactly when no stream is online. -/
theorem c8_report_aggregation (name id : String)
    (streams : List StreamHealth) (hne : streams ≠ []) :
    (mkChannelHealthReport name id streams).successRate =
      ((streams.filter (fun s => s.status = "online")).length : ℚ) /
        streams.length * 100 ∧
    (streams.filter (fun s => s.status = "online") = [] →
      (mkChannelHealthReport name id streams).bestStream = none ∧
      (mkChannelHealthReport name id streams).worstStream = none) ∧
    (∀ b, (mkChannelHealthReport name id streams).bestStream = some b →
      b ∈ streams.filter (fun s => s.status = "online") ∧
      ∀ x ∈ streams.filter (fun s => s.status = "online"),
        b.responseTime ≤ x.responseTime) ∧
    (∀ w, (mkChannelHealthReport name id streams).worstStream = some w →
      w ∈ streams.filter (fun s => s.status = "online") ∧
      ∀ x ∈ streams.filter (fun s => s.status = "online"),
        x.responseTime ≤ w.responseTime) ∧
    (streams.filter (fun s => s.status = "online") ≠ [] →
      (∃ b, (mkChannelHealthReport name id streams).bestStream = some b) ∧
      (∃ w, (mkChannelHealthReport name id streams).worstStream = some w)) := by
  cases streams with
  | nil => exact absurd rfl hne
  | cons a as =>
    have hbest : (mkChannelHealthReport name id (a :: as)).bestStream =
        (match (a :: as).filter (fun s => s.status = "online") with
          | [] => none
          | s :: rest => some (minByRt s rest)) := rfl
    have hworst : (mkChannelHealthReport name id (a :: as)).worstStream =
        (match (a :: as).filter (fun s => s.status = "online") with
          | [] => none
          | s :: rest => some (maxByRt s rest)) := rfl
    refine ⟨rfl, ?_, ?_, ?_, ?_⟩
    · intro h
      rw [hbest, hworst, h]
      exact ⟨rfl, rfl⟩
    · intro b hb
      rw [hbest] at hb
      cases honline : (a :: as).filter (fun s => s.status = "online") with
      | nil =>
        rw [honline] at hb
        have hb' : (none : Option StreamHealth) = some b := hb
        cases hb'
      | cons s rest =>
        rw [honline] at hb
        have hb' : some (minByRt s rest) = some b := hb
        obtain rfl := (Option.some.inj hb').symm
        exact ⟨minByRt_mem s rest, fun x hx => minByRt_le s rest x hx⟩
    · intro w hw
      rw [hworst] at hw
      cases honline : (a :: as).filter (fun s => s.status = "online") with
      | nil =>
        rw [honline] at hw
        have hw' : (none : Option StreamHealth) = some w := hw
        cases hw'
      | cons s rest =>
        rw [honline] at hw
        have hw' : some (maxByRt s rest) = some w := hw
        obtain rfl := (Option.some.inj hw').symm
        exact ⟨maxByRt_mem s rest, fun x hx => maxByRt_ge s rest x hx⟩
    · intro h
      cases honline : (a :: as).filter (fun s => s.status = "online") with
      | nil => exact absurd honline h
      | cons s rest =>
        constructor
        · refine ⟨minByRt s rest, ?_⟩
          rw [hbest, honline]
        · refine ⟨maxByRt s rest, ?_⟩
          rw [hworst, honline]

/-- Witness for the amended C8: the best stream of the two-stream report is
the online one and its latency is minimal among online streams. -/
theorem c8_report_aggregation_witness :
    c8s1 ∈ ([c8s1, c8s2] : List StreamHealth).filter
      (fun s => s.status = "online") ∧
    ∀ x ∈ ([c8s1, c8s2] : List StreamHealth).filter
      (fun s => s.status = "online"), c8s1.responseTime ≤ x.responseTime :=
  (c8_report_aggregation "c" "i" [c8s1, c8s2] (by decide)).2.2.1 c8s1
    (by decide)

lemma checkChannelHealth_streams (env : ProbeEnv) (fuel : Nat) (ch : Channel) :
    (checkChannelHealth env fuel ch).streams =
      (ch.streamUrls.filter (fun u => u ≠ "")).map (checkStreamHealth env fuel) := by
  unfold checkChannelHealth
  cases h : (ch.streamUrls.filter (fun u => u ≠ "")).map
      (checkStreamHealth env fuel) with
  | nil => simp only [mkChannelHealthReport, h]
  | cons a as => simp only [mkChannelHealthReport, h]

/-- C9: probing is total — for every oracle, fuel and URL the probe returns
a result classified "online", "offline", "timeout" or "error"; a URL the
parser rejects yields "error"; and in a channel batch every non-empty URL's
probe result (failures included) enters the report's stream list, whose
length is exactly the number of probed URLs, so failures contribute to the
success-rate denominator. -/
theorem c9_probe_totality (env : ProbeEnv) (fuel : Nat) (url : String)
    (ch : Channel) :
    ((checkStreamHealth env fuel url).status = "online" ∨
     (checkStreamHealth env fuel url).status = "offline" ∨
     (checkStreamHealth env fuel url).status = "timeout" ∨
     (checkStreamHealth env fuel url).status = "error") ∧
    (env.validUrl url = false →
      (checkStreamHealth env fuel url).status = "error") ∧
    ((checkChannelHealth env fuel ch).streams.length =
      (ch.streamUrls.filter (fun u => u ≠ "")).length) ∧
    (∀ u ∈ ch.streamUrls, u ≠ "" →
      checkStreamHealth env fuel u ∈ (checkChannelHealth env fuel ch).streams) := by
  refine ⟨?_, ?_, ?_, ?_⟩
  · induction fuel generalizing url with
    | zero =>
      right; right; right; rfl
    | succ n ih =>
      unfold checkStreamHealth
      split
      · split
        · split
          · left; rfl
          · split
            · split
              · exact ih _
              · right; left; rfl
            · right; left; rfl
        · right; right; left; rfl
        · right; right; right; rfl
        · right; right; right; rfl
      · right; right; right; rfl
  · intro h
    cases fuel with
    | zero => rfl
    | succ n =>
      unfold checkStreamHealth
      rw [if_neg (by simp [h])]
  · rw [checkChannelHealth_streams, List.length_map]
  · intro u hu hne
    rw [checkChannelHealth_streams]
    exact List.mem_map_of_mem _ (List.mem_filter.2 ⟨hu, by simpa using hne⟩)

/-- Witness for C9: a malformed URL classifies "error", and a good URL's
result enters the channel report. -/
theorem c9_probe_totality_witness :
    (checkStreamHealth c9Env 5 "bad").status = "error" ∧
    checkStreamHealth c9Env 5 "http://ok" ∈
      (checkChannelHealth c9Env 5 c9Channel).streams :=
  ⟨(c9_probe_totality c9Env 5 "bad" c9Channel).2.1 (by decide),
   (c9_probe_totality c9Env 5 "http://ok" c9Channel).2.2.2 "http://ok"
     (by decide) (by decide)⟩
